import Mathlib

/- Verification of the mex-hal concurrent resource-lifecycle and event-dispatch
core: a shallow embedding of ResourceManager (src/src/resource_manager.cpp),
CallbackManager (src/src/callback_manager.cpp), TimerLinux
(src/src/timer/timer_linux.cpp), HALStateEngine (src/src/hal_state_engine.cpp)
and the interrupt-watcher logic of GPIOLinux (src/src/gpio/gpio_linux.cpp).
Maps guarded by a single lock are modelled as functions from keys to optional
records; the sequential semantics under the lock is embedded directly.
Machine integers are Nat with an explicit modulus where overflow can matter:
the uint32_t refCount wraps at 2^32 exactly as std::atomic fetch_add does.
The uint64_t id counters are modelled as unbounded Nat: no execution performs
2^64 registrations, and no claim quantifies over the number of id allocations. -/

set_option maxRecDepth 4000
set_option linter.unusedVariables false

/-- Pin value enumeration from include/hal/types.h. -/
inductive PinValue where
  | LOW
  | HIGH
deriving DecidableEq

/-- Edge trigger enumeration from include/hal/types.h. -/
inductive EdgeTrigger where
  | RISING
  | FALLING
  | BOTH
deriving DecidableEq

/-- Resource type enumeration from include/hal/resource_manager.h. -/
inductive ResourceType where
  | FILE_DESCRIPTOR
  | GPIO_PIN
  | SPI_BUS
  | I2C_BUS
  | UART_PORT
  | PWM_CHANNEL
  | TIMER
  | ADC_CHANNEL
deriving DecidableEq

/-- Modulus of the uint32_t refCount field. -/
def U32 : Nat := 2 ^ 32

/-- ResourceInfo record from include/hal/resource_manager.h.  The refCount
field holds a uint32_t value, so it is kept below U32; the untyped handle
pointer is modelled as a Nat. -/
structure ResourceInfo where
  type : ResourceType
  name : String
  handle : Nat
  refCount : Nat
  inUse : Bool
deriving DecidableEq

/-- State of the ResourceManager singleton: the id-to-record map resources_
(a function that is none outside the registered ids) and the nextResourceId_
counter, which starts at 1. -/
structure RMState where
  resources : Nat → Option ResourceInfo
  nextResourceId : Nat

/-- Initial ResourceManager state: empty map, nextResourceId_ starts at 1. -/
def rmInit : RMState := ⟨fun _ => none, 1⟩

/-- ResourceManager::registerResource: allocates a fresh id, stores a record
with refCount 1 and inUse false, returns the id. -/
def registerResource (st : RMState) (type : ResourceType) (name : String)
    (handle : Nat) : Nat × RMState :=
  let resourceId := st.nextResourceId
  (resourceId,
    { st with
      nextResourceId := st.nextResourceId + 1
      resources := fun k =>
        if k = resourceId then some ⟨type, name, handle, 1, false⟩
        else st.resources k })

/-- ResourceManager::unregisterResource: false if the id is unknown or the
refCount is nonzero; otherwise erases the record and returns true. -/
def unregisterResource (st : RMState) (resourceId : Nat) : Bool × RMState :=
  match st.resources resourceId with
  | none => (false, st)
  | some info =>
    if 0 < info.refCount then (false, st)
    else
      (true,
        { st with
          resources := fun k =>
            if k = resourceId then none else st.resources k })

/-- ResourceManager::addRef: 0 on an unknown id; otherwise fetch_add(1) on
the uint32_t refCount (wrapping at 2^32) and return the new count. -/
def addRef (st : RMState) (resourceId : Nat) : Nat × RMState :=
  match st.resources resourceId with
  | none => (0, st)
  | some info =>
    let newCount := (info.refCount + 1) % U32
    (newCount,
      { st with
        resources := fun k =>
          if k = resourceId then some { info with refCount := newCount }
          else st.resources k })

/-- ResourceManager::release: 0 on an unknown id; 0 and no effect when the
count is already 0 (never decrements below 0); otherwise fetch_sub(1) and
return the new count. -/
def release (st : RMState) (resourceId : Nat) : Nat × RMState :=
  match st.resources resourceId with
  | none => (0, st)
  | some info =>
    if info.refCount = 0 then (0, st)
    else
      (info.refCount - 1,
        { st with
          resources := fun k =>
            if k = resourceId then some { info with refCount := info.refCount - 1 }
            else st.resources k })

/-- ResourceManager::getRefCount: 0 on an unknown id, else the stored count. -/
def getRefCount (st : RMState) (resourceId : Nat) : Nat :=
  match st.resources resourceId with
  | none => 0
  | some info => info.refCount

/-- Iterate a state transformer n times (models a sequence of n identical
calls, e.g. N addRef(id) calls in a row). -/
def iterOp {α : Type} (f : α → α) : Nat → α → α
  | 0, st => st
  | n + 1, st => iterOp f n (f st)

/-- GPIOCallbackInfo from include/hal/callback_manager.h.  The stored
std::function handler is modelled as an abstract handler key; none models an
empty std::function (the source checks callbackIt->second.callback before
invoking). -/
structure GPIOCallbackInfo where
  pin : Nat
  callback : Option Nat
deriving DecidableEq

/-- TimerCallbackInfo from include/hal/callback_manager.h. -/
structure TimerCallbackInfo where
  timerId : Nat
  callback : Option Nat
deriving DecidableEq

/-- State of the CallbackManager singleton: the two keyed tables of each
domain and the shared nextCallbackId_ counter (starts at 1).  A pin absent
from gpioCallbacksByPin_ is modelled as the empty id list, which matches the
source behaviour: invoke returns immediately on an absent key, and
unregister erases a key whose vector became empty. -/
structure CMState where
  nextCallbackId : Nat
  gpioCallbacks : Nat → Option GPIOCallbackInfo
  gpioCallbacksByPin : Nat → List Nat
  timerCallbacks : Nat → Option TimerCallbackInfo
  timerCallbacksById : Nat → List Nat

/-- Initial CallbackManager state. -/
def cmInit : CMState := ⟨1, fun _ => none, fun _ => [], fun _ => none, fun _ => []⟩

/-- CallbackManager::registerGPIOCallback: allocate a fresh id, store the
info record, and push_back the id on the vector of that pin. -/
def registerGPIOCallback (st : CMState) (pin : Nat) (cb : Option Nat) :
    Nat × CMState :=
  let callbackId := st.nextCallbackId
  (callbackId,
    { st with
      nextCallbackId := st.nextCallbackId + 1
      gpioCallbacks := fun k =>
        if k = callbackId then some ⟨pin, cb⟩ else st.gpioCallbacks k
      gpioCallbacksByPin := fun p =>
        if p = pin then st.gpioCallbacksByPin pin ++ [callbackId]
        else st.gpioCallbacksByPin p })

/-- CallbackManager::unregisterGPIOCallback: false on an unknown id;
otherwise erase the record, remove every occurrence of the id from the vector
of its pin, and return true. -/
def unregisterGPIOCallback (st : CMState) (callbackId : Nat) : Bool × CMState :=
  match st.gpioCallbacks callbackId with
  | none => (false, st)
  | some info =>
    (true,
      { st with
        gpioCallbacks := fun k =>
          if k = callbackId then none else st.gpioCallbacks k
        gpioCallbacksByPin := fun p =>
          if p = info.pin then
            (st.gpioCallbacksByPin info.pin).filter (fun x => x ≠ callbackId)
          else st.gpioCallbacksByPin p })

/-- CallbackManager::registerTimerCallback, sharing nextCallbackId_ with the
GPIO domain. -/
def registerTimerCallback (st : CMState) (timerId : Nat) (cb : Option Nat) :
    Nat × CMState :=
  let callbackId := st.nextCallbackId
  (callbackId,
    { st with
      nextCallbackId := st.nextCallbackId + 1
      timerCallbacks := fun k =>
        if k = callbackId then some ⟨timerId, cb⟩ else st.timerCallbacks k
      timerCallbacksById := fun t =>
        if t = timerId then st.timerCallbacksById timerId ++ [callbackId]
        else st.timerCallbacksById t })

/-- CallbackManager::unregisterTimerCallback. -/
def unregisterTimerCallback (st : CMState) (callbackId : Nat) : Bool × CMState :=
  match st.timerCallbacks callbackId with
  | none => (false, st)
  | some info =>
    (true,
      { st with
        timerCallbacks := fun k =>
          if k = callbackId then none else st.timerCallbacks k
        timerCallbacksById := fun t =>
          if t = info.timerId then
            (st.timerCallbacksById info.timerId).filter (fun x => x ≠ callbackId)
          else st.timerCallbacksById t })

/-- A CallbackManager operation a handler may perform while it is being
invoked (the source handlers are arbitrary code; the dispatch claims concern
handlers that mutate the subscription tables). -/
inductive CMOp where
  | regGpioCb (pin : Nat) (cb : Option Nat)
  | unregGpioCb (callbackId : Nat)
  | regTimerCb (timerId : Nat) (cb : Option Nat)
  | unregTimerCb (callbackId : Nat)

/-- Effect of one CallbackManager operation on the manager state. -/
def applyCMOp (st : CMState) : CMOp → CMState
  | .regGpioCb pin cb => (registerGPIOCallback st pin cb).2
  | .unregGpioCb callbackId => (unregisterGPIOCallback st callbackId).2
  | .regTimerCb timerId cb => (registerTimerCallback st timerId cb).2
  | .unregTimerCb callbackId => (unregisterTimerCallback st callbackId).2

/-- Run a sequence of CallbackManager operations in order. -/
def runCMOps (st : CMState) (ops : List CMOp) : CMState := ops.foldl applyCMOp st

/-- One observable delivery of a GPIO event: the subscription id whose
handler was copied out and called, the handler, and the call arguments. -/
structure GPIOEvent where
  callbackId : Nat
  handler : Nat
  pin : Nat
  value : PinValue
deriving DecidableEq

/-- One observable delivery of a timer event. -/
structure TimerEvent where
  callbackId : Nat
  handler : Nat
deriving DecidableEq

/-- Loop body of CallbackManager::invokeGPIOCallback over the snapshotted id
list: for each id, re-find it in the current gpioCallbacks_ map, and if it is
still present with a non-empty handler, copy the handler and call it outside
the lock.  The environment H gives the CallbackManager operations each
handler performs when called; the returned list records the deliveries in
call order. -/
def invokeGPIOGo (H : Nat → List CMOp) (pin : Nat) (value : PinValue) :
    List Nat → CMState → CMState × List GPIOEvent
  | [], st => (st, [])
  | callbackId :: rest, st =>
    match st.gpioCallbacks callbackId with
    | none => invokeGPIOGo H pin value rest st
    | some info =>
      match info.callback with
      | none => invokeGPIOGo H pin value rest st
      | some h =>
        let st1 := runCMOps st (H h)
        let r := invokeGPIOGo H pin value rest st1
        (r.1, ⟨callbackId, h, pin, value⟩ :: r.2)

/-- CallbackManager::invokeGPIOCallback: snapshot the id list of the pin under
the shared lock, then run the loop over the snapshot. -/
def invokeGPIOCallback (H : Nat → List CMOp) (st : CMState) (pin : Nat)
    (value : PinValue) : CMState × List GPIOEvent :=
  invokeGPIOGo H pin value (st.gpioCallbacksByPin pin) st

/-- Loop body of CallbackManager::invokeTimerCallback over the snapshot. -/
def invokeTimerGo (H : Nat → List CMOp) :
    List Nat → CMState → CMState × List TimerEvent
  | [], st => (st, [])
  | callbackId :: rest, st =>
    match st.timerCallbacks callbackId with
    | none => invokeTimerGo H rest st
    | some info =>
      match info.callback with
      | none => invokeTimerGo H rest st
      | some h =>
        let st1 := runCMOps st (H h)
        let r := invokeTimerGo H rest st1
        (r.1, ⟨callbackId, h⟩ :: r.2)

/-- CallbackManager::invokeTimerCallback. -/
def invokeTimerCallback (H : Nat → List CMOp) (st : CMState) (timerId : Nat) :
    CMState × List TimerEvent :=
  invokeTimerGo H (st.timerCallbacksById timerId) st

/-- Specification of one invocation read off the snapshot alone: the ids
currently subscribed to the key, in table order, each delivered once with its
stored handler (ids whose record or handler is missing deliver nothing). -/
def gpioSnapshotEvents (st : CMState) (pin : Nat) (value : PinValue) :
    List GPIOEvent :=
  (st.gpioCallbacksByPin pin).filterMap (fun callbackId =>
    match st.gpioCallbacks callbackId with
    | none => none
    | some info => info.callback.map (fun h => ⟨callbackId, h, pin, value⟩))

/-- Timer-domain analogue of gpioSnapshotEvents. -/
def timerSnapshotEvents (st : CMState) (timerId : Nat) : List TimerEvent :=
  (st.timerCallbacksById timerId).filterMap (fun callbackId =>
    match st.timerCallbacks callbackId with
    | none => none
    | some info => info.callback.map (fun h => ⟨callbackId, h⟩))

/-- Well-formedness of the GPIO tables, maintained by the register and
unregister operations: the vector of each pin has no duplicate ids and lists
exactly ids registered for that pin. -/
def GpioWf (st : CMState) : Prop :=
  (∀ pin, (st.gpioCallbacksByPin pin).Nodup) ∧
  (∀ pin callbackId, callbackId ∈ st.gpioCallbacksByPin pin →
    ∃ info, st.gpioCallbacks callbackId = some info ∧ info.pin = pin)

/-- The subscription a was erased from the GPIO table and predates the id
counter, so no later registration can reissue it. -/
def gpioGone (a : Nat) (st : CMState) : Prop :=
  st.gpioCallbacks a = none ∧ a < st.nextCallbackId

/-- CallbackManager state with two subscriptions on pin 17 registered from a
fresh manager: ids 1 and 2, handlers 10 and 20, in that order. -/
def cmTwoOn17 : CMState :=
  (registerGPIOCallback (registerGPIOCallback cmInit 17 (some 10)).2 17 (some 20)).2

/-- Timer mode enumeration from include/hal/timer.h. -/
inductive TimerMode where
  | ONE_SHOT
  | PERIODIC
deriving DecidableEq

/-- One callback firing of the timer loop: the absolute deadline (nextTick)
the loop slept towards, and the steady-clock instant at which the callback
was actually called, both in microseconds. -/
structure Tick where
  deadline : Nat
  fireTime : Nat
deriving DecidableEq

/-- Loop body of TimerLinux::timerLoop, iterated on explicit fuel (the real
loop runs until stopped; fuel bounds how many iterations are observed).
Arguments per iteration k: tNow is the steady clock, startTime the stored
reference instant.  Each iteration computes nextTick = startTime + interval;
PERIODIC sleeps until that absolute instant (clock becomes max tNow
nextTick), ONE_SHOT sleeps for the interval; if shouldStop is still unset
and a callback is stored, the callback fires and execution advances the
clock by dur k; ONE_SHOT then breaks out of the loop, PERIODIC stores
startTime := nextTick and continues.  stop1 k and stop2 k give the values of
the two shouldStop loads of iteration k; the Bool result is true exactly
when the loop exited (and so ran running.store(false) right after). -/
def timerLoopGo (mode : TimerMode) (intervalUs : Nat) (stop1 stop2 : Nat → Bool)
    (dur : Nat → Nat) (hasCb : Bool) :
    Nat → Nat → Nat → Nat → List Tick × Bool
  | 0, _, _, _ => ([], false)
  | fuel + 1, k, tNow, startTime =>
    if stop1 k then ([], true)
    else
      let nextTick := startTime + intervalUs
      let t1 := if mode = TimerMode.PERIODIC then max tNow nextTick
                else tNow + intervalUs
      let fired : Option Tick × Nat :=
        if stop2 k then (none, t1)
        else if hasCb then (some ⟨nextTick, t1⟩, t1 + dur k)
        else (none, t1)
      if mode = TimerMode.ONE_SHOT then (fired.1.toList, true)
      else
        let r := timerLoopGo mode intervalUs stop1 stop2 dur hasCb fuel
          (k + 1) fired.2 nextTick
        (fired.1.toList ++ r.1, r.2)

/-- TimerLinux::timerLoop: records startTime = steady_clock::now() at entry
and runs the loop from iteration 0. -/
def timerLoop (mode : TimerMode) (intervalUs : Nat) (stop1 stop2 : Nat → Bool)
    (dur : Nat → Nat) (hasCb : Bool) (fuel now0 : Nat) : List Tick × Bool :=
  timerLoopGo mode intervalUs stop1 stop2 dur hasCb fuel 0 now0 now0

/-- Control-surface state of one TimerLinux object: the stored mode and
interval, the running and shouldStop atomics, whether a callback value is
stored, whether the timerThread member holds a joinable thread, and how many
spawned worker threads are still executing timerLoop. -/
structure TimerSt where
  mode : TimerMode
  intervalUs : Nat
  running : Bool
  shouldStop : Bool
  hasCb : Bool
  threadJoinable : Bool
  liveThreads : Nat
deriving DecidableEq

/-- A freshly constructed TimerLinux (member initialisers in
src/src/timer/timer_linux.h). -/
def timerInitSt : TimerSt := ⟨.ONE_SHOT, 0, false, false, false, false, 0⟩

namespace TimerLinux

/-- TimerLinux::init: store the mode, return true. -/
def init (st : TimerSt) (m : TimerMode) : Bool × TimerSt :=
  (true, { st with mode := m })

/-- TimerLinux::start: false with no effect if already running; otherwise
store the interval and callback, clear shouldStop, set running, and spawn
the timerLoop thread. -/
def start (st : TimerSt) (interval : Nat) (cb : Bool) : Bool × TimerSt :=
  if st.running then (false, st)
  else
    (true,
      { st with
        intervalUs := interval
        hasCb := cb
        shouldStop := false
        running := true
        threadJoinable := true
        liveThreads := st.liveThreads + 1 })

/-- TimerLinux::stop: always sets shouldStop; returns false if the thread
member is not joinable (never started, or already joined); otherwise joins
the thread (which has then fully exited), clears running, and returns
true. -/
def stop (st : TimerSt) : Bool × TimerSt :=
  let st1 := { st with shouldStop := true }
  if st1.threadJoinable = false then (false, st1)
  else (true, { st1 with threadJoinable := false, running := false, liveThreads := 0 })

/-- TimerLinux::setInterval: false with no effect while running; otherwise
store the new interval. -/
def setInterval (st : TimerSt) (interval : Nat) : Bool × TimerSt :=
  if st.running then (false, st) else (true, { st with intervalUs := interval })

/-- TimerLinux::isRunning. -/
def isRunning (st : TimerSt) : Bool := st.running

/-- Effect on the object state of the timer thread leaving timerLoop on its
own (running.store(false) at the end of timerLoop): the finished thread is
no longer executing but the std::thread member remains joinable. -/
def threadExit (st : TimerSt) : TimerSt :=
  { st with running := false, liveThreads := st.liveThreads - 1 }

end TimerLinux

/-- HAL state enumeration from include/hal/hal_state_engine.h. -/
inductive HALState where
  | IDLE
  | RUNNING
  | STOPPED
deriving DecidableEq

/-- State of the HALStateEngine singleton: the running_ atomic, the
stopRequested_ flag, whether the worker_ member holds a joinable thread, and
how many spawned worker threads have not yet been joined. -/
structure EngineSt where
  running : Bool
  stopRequested : Bool
  workerJoinable : Bool
  liveWorkers : Nat
deriving DecidableEq

/-- A freshly constructed HALStateEngine. -/
def engineInit : EngineSt := ⟨false, false, false, 0⟩

namespace HALStateEngine

/-- HALStateEngine::start: no-op while running_; otherwise set running_,
clear stopRequested_, and spawn the engineLoop worker thread. -/
def start (st : EngineSt) : EngineSt :=
  if st.running then st
  else
    { st with
      running := true
      stopRequested := false
      workerJoinable := true
      liveWorkers := st.liveWorkers + 1 }

/-- HALStateEngine::stop: early return while not running_; otherwise set
stopRequested_, join the worker if joinable (blocking until it has fully
exited), and clear running_. -/
def stop (st : EngineSt) : EngineSt :=
  if st.running = false then st
  else
    let st1 := { st with stopRequested := true }
    let st2 :=
      if st1.workerJoinable then
        { st1 with workerJoinable := false, liveWorkers := 0 }
      else st1
    { st2 with running := false }

/-- HALStateEngine::getState: RUNNING when running_ is set, else STOPPED. -/
def getState (st : EngineSt) : HALState :=
  if st.running then .RUNNING else .STOPPED

end HALStateEngine

/-- One public call on the state engine. -/
inductive EngineOp where
  | startOp
  | stopOp

/-- Effect of one public call on the engine state. -/
def applyEngineOp (st : EngineSt) : EngineOp → EngineSt
  | .startOp => HALStateEngine.start st
  | .stopOp => HALStateEngine.stop st

/-- Engine state after a sequence of public calls on a fresh engine. -/
def engineRun (ops : List EngineOp) : EngineSt :=
  ops.foldl applyEngineOp engineInit

/-- PinInfo from src/src/gpio/gpio_linux.h (direction omitted: no claim
reads it). -/
structure PinInfo where
  resourceId : Nat
  exported : Bool
  interruptActive : Bool
  callbackId : Nat
deriving DecidableEq

/-- State of one GPIOLinux object: the pins_ map, the number of spawned
monitorInterrupt threads per pin that are still executing their poll loop (a
monitor thread exits only when shutdownRequested_ becomes true, which only
the destructor sets), and the shutdownRequested_ flag. -/
structure GpioSt where
  pins : Nat → Option PinInfo
  liveWatchers : Nat → Nat
  shutdownRequested : Bool

/-- Combined state of a GPIOLinux object and the two manager singletons it
calls into. -/
structure HalSys where
  rm : RMState
  cm : CMState
  gpio : GpioSt

/-- Fresh GPIOLinux object with fresh manager singletons. -/
def sysInit : HalSys :=
  ⟨rmInit, cmInit, ⟨fun _ => none, fun _ => 0, false⟩⟩

namespace GPIOLinux

/-- GPIOLinux::setInterrupt on the success path (every sysfs write is
modelled as succeeding; the edge argument only selects the string written to
the edge file).  An unknown pin is exported and registered with the
ResourceManager; the callback is registered with the CallbackManager and its
id stored in the PinInfo; a monitorInterrupt thread is spawned if and only
if interruptActive.exchange(true) read false. -/
def setInterrupt (s : HalSys) (pin : Nat) (edge : EdgeTrigger) (cb : Option Nat) :
    Bool × HalSys :=
  let s1 : HalSys :=
    match s.gpio.pins pin with
    | some _ => s
    | none =>
      let r := registerResource s.rm .GPIO_PIN ("GPIO" ++ toString pin) pin
      { s with
        rm := r.2
        gpio := { s.gpio with
          pins := fun p =>
            if p = pin then some ⟨r.1, true, false, 0⟩ else s.gpio.pins p } }
  let rc := registerGPIOCallback s1.cm pin cb
  let s2 : HalSys :=
    { s1 with
      cm := rc.2
      gpio := { s1.gpio with
        pins := fun p =>
          if p = pin then (s1.gpio.pins pin).map (fun i => { i with callbackId := rc.1 })
          else s1.gpio.pins p } }
  match h : s2.gpio.pins pin with
  | none => (true, s2)
  | some info =>
    if info.interruptActive then (true, s2)
    else
      (true,
        { s2 with
          gpio := { s2.gpio with
            pins := fun p =>
              if p = pin then some { info with interruptActive := true }
              else s2.gpio.pins p
            liveWatchers := fun p =>
              if p = pin then s2.gpio.liveWatchers pin + 1
              else s2.gpio.liveWatchers p } })

/-- GPIOLinux::removeInterrupt on the success path: false if the pin is
unknown or has no active interrupt; otherwise write none to the edge file,
clear interruptActive, and unregister the stored callback.  The monitor
thread is neither signalled nor joined here: shutdownRequested_ and the
per-pin thread handle are untouched. -/
def removeInterrupt (s : HalSys) (pin : Nat) : Bool × HalSys :=
  match s.gpio.pins pin with
  | none => (false, s)
  | some info =>
    if info.interruptActive = false then (false, s)
    else
      let info1 := { info with interruptActive := false }
      let next : CMState × PinInfo :=
        if info1.callbackId ≠ 0 then
          ((unregisterGPIOCallback s.cm info1.callbackId).2,
            { info1 with callbackId := 0 })
        else (s.cm, info1)
      (true,
        { s with
          cm := next.1
          gpio := { s.gpio with
            pins := fun p => if p = pin then some next.2 else s.gpio.pins p } })

end GPIOLinux

/-- Invariant tying the engine worker-thread count to the running flag: a
running engine has exactly one live worker (and a joinable handle), a
stopped one has none. -/
def engineInv (st : EngineSt) : Prop :=
  st.liveWorkers = (if st.running then 1 else 0)
    ∧ (st.running = true → st.workerJoinable = true)

/-- CallbackManager state with three subscriptions on pin 17 registered from
a fresh manager: ids 1, 2, 3 with handlers 100, 200, 300, in that order. -/
def cmThreeOn17 : CMState :=
  (registerGPIOCallback (registerGPIOCallback
    (registerGPIOCallback cmInit 17 (some 100)).2 17 (some 200)).2 17 (some 300)).2

/-- Handler environment in which handler 100 unregisters subscription 3 of
the same pin while it is being invoked, and every other handler is inert. -/
def unregThreeEnv : Nat → List CMOp :=
  fun h => if h = 100 then [.unregGpioCb 3] else []

/-- Stepping addRef once on a registered id increments the stored uint32_t
count modulo 2^32 (std::atomic fetch_add wraps). -/
lemma addRef_step (st : RMState) (resourceId : Nat) (info : ResourceInfo)
    (h : st.resources resourceId = some info) :
    ((addRef st resourceId).2).resources resourceId
      = some { info with refCount := (info.refCount + 1) % U32 } := by
  simp [addRef, h]

/-- Iterating addRef n times from stored count c adds n modulo 2^32. -/
lemma addRef_iter (resourceId : Nat) :
    ∀ (n : Nat) (st : RMState) (c : Nat), c < U32 →
      (∃ info, st.resources resourceId = some info ∧ info.refCount = c) →
      ∃ info2,
        (iterOp (fun s => (addRef s resourceId).2) n st).resources resourceId
            = some info2
          ∧ info2.refCount = (c + n) % U32 := by
  intro n
  induction n with
  | zero =>
    intro st c hc hex
    obtain ⟨info, hres, hrc⟩ := hex
    exact ⟨info, by simpa [iterOp] using hres, by simp [hrc, Nat.mod_eq_of_lt hc]⟩
  | succ n ih =>
    intro st c hc hex
    obtain ⟨info, hres, hrc⟩ := hex
    have hstep := addRef_step st resourceId info hres
    have hlt : (info.refCount + 1) % U32 < U32 :=
      Nat.mod_lt _ (by simp [U32])
    obtain ⟨info2, h2, hrc2⟩ :=
      ih ((addRef st resourceId).2) ((c + 1) % U32) (by rw [← hrc]; exact hlt)
        ⟨_, hstep, by simp [hrc]⟩
    refine ⟨info2, ?_, ?_⟩
    · simpa [iterOp] using h2
    · rw [hrc2, Nat.mod_add_mod]
      congr 1
      omega

/-- Iterating release n times on a registered id with stored count c ≥ n
decrements the count by n (each step sees a nonzero count). -/
lemma release_iter (resourceId : Nat) :
    ∀ (n : Nat) (st : RMState) (c : Nat), n ≤ c →
      (∃ info, st.resources resourceId = some info ∧ info.refCount = c) →
      ∃ info2,
        (iterOp (fun s => (release s resourceId).2) n st).resources resourceId
            = some info2
          ∧ info2.refCount = c - n := by
  intro n
  induction n with
  | zero =>
    intro st c hc hex
    obtain ⟨info, hres, hrc⟩ := hex
    exact ⟨info, by simpa [iterOp] using hres, by simp [hrc]⟩
  | succ n ih =>
    intro st c hc hex
    obtain ⟨info, hres, hrc⟩ := hex
    have hne : ¬ info.refCount = 0 := by omega
    have hstep : ((release st resourceId).2).resources resourceId
        = some { info with refCount := info.refCount - 1 } := by
      simp [release, hres, hne]
    obtain ⟨info2, h2, hrc2⟩ :=
      ih ((release st resourceId).2) (c - 1) (by omega)
        ⟨_, hstep, by simp [hrc]⟩
    refine ⟨info2, ?_, ?_⟩
    · simpa [iterOp] using h2
    · rw [hrc2]; omega

/-- Release on a record whose count is already 0 is the identity on the
whole manager state, so iterating it changes nothing. -/
lemma release_zero_iter (resourceId : Nat) :
    ∀ (n : Nat) (st : RMState) (info : ResourceInfo),
      st.resources resourceId = some info → info.refCount = 0 →
      iterOp (fun s => (release s resourceId).2) n st = st := by
  intro n
  induction n with
  | zero => intro st info hres hrc; simp [iterOp]
  | succ n ih =>
    intro st info hres hrc
    have hstep : (release st resourceId).2 = st := by
      simp [release, hres, hrc]
    calc iterOp (fun s => (release s resourceId).2) (n + 1) st
        = iterOp (fun s => (release s resourceId).2) n st := by
          simp only [iterOp, hstep]
      _ = st := ih st info hres hrc

/-- Reading the refcount of a registered id returns the stored count.  Used
to avoid unfolding getRefCount on states given by large iterations. -/
lemma getRefCount_eq (st : RMState) (resourceId : Nat) (info : ResourceInfo)
    (h : st.resources resourceId = some info) :
    getRefCount st resourceId = info.refCount := by
  simp [getRefCount, h]

/-- C1 counterexample: the refCount field is a uint32_t and fetch_add wraps,
so after registering a resource (id 1, refcount 1) and performing
N = 2^32 - 1 addRef calls the stored count has wrapped to 0; the following
N release calls all see count 0 and do nothing, so getRefCount ends at 0,
not 1 — refuting the claim instance for N = 2^32 - 1. -/
theorem refcount_wrap_cex :
    getRefCount (iterOp (fun s => (release s 1).2) (U32 - 1)
      (iterOp (fun s => (addRef s 1).2) (U32 - 1)
        (registerResource rmInit .GPIO_PIN ("g") 4).2)) 1 = 0
    ∧ getRefCount (iterOp (fun s => (release s 1).2) (U32 - 1)
      (iterOp (fun s => (addRef s 1).2) (U32 - 1)
        (registerResource rmInit .GPIO_PIN ("g") 4).2)) 1 ≠ 1 := by
  have hreg : ((registerResource rmInit .GPIO_PIN ("g") 4).2).resources 1
      = some ⟨.GPIO_PIN, ("g"), 4, 1, false⟩ := by
    simp [registerResource, rmInit]
  obtain ⟨info2, h2, hrc2⟩ :=
    addRef_iter 1 (U32 - 1) ((registerResource rmInit .GPIO_PIN ("g") 4).2) 1
      (by simp [U32]) ⟨_, hreg, rfl⟩
  have hzero : info2.refCount = 0 := by
    rw [hrc2]
    have h1 : 1 + (U32 - 1) = U32 := by norm_num [U32]
    rw [h1, Nat.mod_self]
  have hfix := release_zero_iter 1 (U32 - 1) _ info2 h2 hzero
  rw [hfix, getRefCount_eq _ 1 info2 h2, hzero]
  exact ⟨rfl, by omega⟩

/-- C1 (amended): a freshly registered resource has refcount 1; a sequence
of N addRef calls followed by N release calls returns the refcount to 1 for
every N ≤ 2^32 - 2 (the uint32_t count must not wrap); and unregisterResource
returns false and changes nothing while the refcount is positive, but
returns true and removes exactly that record once the refcount is 0. -/
theorem refcount_contract :
    (∀ (st : RMState) (t : ResourceType) (nm : String) (hd : Nat),
      getRefCount (registerResource st t nm hd).2 (registerResource st t nm hd).1 = 1)
    ∧ (∀ (st : RMState) (resourceId N : Nat) (info : ResourceInfo),
      st.resources resourceId = some info → info.refCount = 1 → N ≤ U32 - 2 →
      getRefCount (iterOp (fun s => (release s resourceId).2) N
        (iterOp (fun s => (addRef s resourceId).2) N st)) resourceId = 1)
    ∧ (∀ (st : RMState) (resourceId : Nat) (info : ResourceInfo),
      st.resources resourceId = some info →
      (0 < info.refCount → unregisterResource st resourceId = (false, st)) ∧
      (info.refCount = 0 →
        (unregisterResource st resourceId).1 = true ∧
        ((unregisterResource st resourceId).2).resources resourceId = none ∧
        ∀ j, j ≠ resourceId →
          ((unregisterResource st resourceId).2).resources j = st.resources j)) := by
  refine ⟨?_, ?_, ?_⟩
  · intro st t nm hd
    simp [registerResource, getRefCount]
  · intro st resourceId N info hres hrc hN
    obtain ⟨info2, h2, hrc2⟩ :=
      addRef_iter resourceId N st 1 (by simp [U32]) ⟨_, hres, hrc⟩
    have hlt : 1 + N < U32 := by
      have : 4 ≤ U32 := by simp [U32]
      omega
    have hrc2n : info2.refCount = 1 + N := by
      rw [hrc2, Nat.mod_eq_of_lt hlt]
    obtain ⟨info3, h3, hrc3⟩ :=
      release_iter resourceId N _ (1 + N) (by omega) ⟨_, h2, hrc2n⟩
    have hone : info3.refCount = 1 := by omega
    rw [getRefCount_eq _ resourceId info3 h3, hone]
  · intro st resourceId info hres
    constructor
    · intro hpos
      simp [unregisterResource, hres, hpos]
    · intro hzero
      have hnpos : ¬ 0 < info.refCount := by omega
      refine ⟨?_, ?_, ?_⟩
      · simp [unregisterResource, hres, hnpos]
      · simp [unregisterResource, hres, hnpos]
      · intro j hj
        simp [unregisterResource, hres, hnpos, hj]

/-- Witness for refcount_contract: all three parts applied at concrete
inputs (a fresh registration, N = 3, and a record drained to refcount 0). -/
theorem refcount_contract_witness :
    (getRefCount (registerResource rmInit .GPIO_PIN ("g") 4).2
        (registerResource rmInit .GPIO_PIN ("g") 4).1 = 1)
    ∧ (((registerResource rmInit .GPIO_PIN ("g") 4).2).resources 1
        = some ⟨.GPIO_PIN, ("g"), 4, 1, false⟩)
    ∧ ((3 : Nat) ≤ U32 - 2)
    ∧ (getRefCount (iterOp (fun s => (release s 1).2) 3
        (iterOp (fun s => (addRef s 1).2) 3
          (registerResource rmInit .GPIO_PIN ("g") 4).2)) 1 = 1)
    ∧ (((release (registerResource rmInit .GPIO_PIN ("g") 4).2 1).2).resources 1
        = some ⟨.GPIO_PIN, ("g"), 4, 0, false⟩)
    ∧ ((unregisterResource (release (registerResource rmInit .GPIO_PIN ("g") 4).2 1).2 1).1
        = true) := by
  refine ⟨refcount_contract.1 rmInit .GPIO_PIN ("g") 4, by decide, by norm_num [U32],
    refcount_contract.2.1 _ 1 3 ⟨.GPIO_PIN, ("g"), 4, 1, false⟩ (by decide) rfl
      (by norm_num [U32]), by decide, ?_⟩
  exact ((refcount_contract.2.2 _ 1 ⟨.GPIO_PIN, ("g"), 4, 0, false⟩ (by decide)).2 rfl).1

/-- One iteration of the periodic loop when shouldStop stays unset and a
callback is stored: fire at deadline startTime + interval, then continue
with startTime advanced to that deadline. -/
lemma timerLoopGo_periodic_step (intervalUs : Nat) (dur : Nat → Nat)
    (fuel k tNow s : Nat) :
    timerLoopGo .PERIODIC intervalUs (fun _ => false) (fun _ => false) dur true
      (fuel + 1) k tNow s
      = ((⟨s + intervalUs, max tNow (s + intervalUs)⟩ : Tick) ::
          (timerLoopGo .PERIODIC intervalUs (fun _ => false) (fun _ => false) dur true
            fuel (k + 1) (max tNow (s + intervalUs) + dur k) (s + intervalUs)).1,
         (timerLoopGo .PERIODIC intervalUs (fun _ => false) (fun _ => false) dur true
            fuel (k + 1) (max tNow (s + intervalUs) + dur k) (s + intervalUs)).2) := by
  simp [timerLoopGo]

/-- Deadlines of the never-stopped periodic loop: the j-th recorded tick has
deadline s + (j+1) * interval, regardless of the callback durations. -/
lemma periodic_deadlines (intervalUs : Nat) (dur : Nat → Nat) :
    ∀ (fuel k tNow s : Nat),
      ((timerLoopGo .PERIODIC intervalUs (fun _ => false) (fun _ => false) dur true
        fuel k tNow s).1).map Tick.deadline
        = (List.range fuel).map (fun j => s + (j + 1) * intervalUs) := by
  intro fuel
  induction fuel with
  | zero => intro k tNow s; simp [timerLoopGo]
  | succ n ih =>
    intro k tNow s
    rw [timerLoopGo_periodic_step, List.range_succ_eq_map]
    simp only [List.map_cons, List.map_map, List.cons.injEq]
    constructor
    · simp
    · rw [ih]
      congr 1
      funext j
      simp only [Function.comp_apply, Nat.succ_eq_add_one]
      ring

/-- With every callback duration at most one interval, each tick of the
never-stopped periodic loop fires exactly at its deadline: the error of one
iteration is absorbed by the next absolute sleep instead of accumulating. -/
lemma periodic_fire_on_time (intervalUs : Nat) (dur : Nat → Nat)
    (hdur : ∀ k, dur k ≤ intervalUs) :
    ∀ (fuel k tNow s : Nat), tNow ≤ s + intervalUs →
      ∀ t ∈ (timerLoopGo .PERIODIC intervalUs (fun _ => false) (fun _ => false) dur true
        fuel k tNow s).1, t.fireTime = t.deadline := by
  intro fuel
  induction fuel with
  | zero => intro k tNow s harr t ht; simp [timerLoopGo] at ht
  | succ n ih =>
    intro k tNow s harr t ht
    rw [timerLoopGo_periodic_step] at ht
    rcases List.mem_cons.mp ht with rfl | hmem
    · simp [Nat.max_eq_right harr]
    · have hmax : max tNow (s + intervalUs) = s + intervalUs := Nat.max_eq_right harr
      have harr2 : max tNow (s + intervalUs) + dur k ≤ (s + intervalUs) + intervalUs := by
        have hd := hdur k
        omega
      exact ih (k + 1) _ (s + intervalUs) harr2 t hmem

/-- C4: in Periodic mode every deadline is the previous deadline plus the
interval — the k-th recorded deadline equals the loop reference instant plus
(k+1) * interval, independent of how long each callback runs — and the loop
sleeps until that absolute instant, so when callbacks take at most one
interval every tick fires exactly at its deadline (no accumulating drift). -/
theorem periodic_timer_drift_free (n intervalUs now0 : Nat) (dur : Nat → Nat) :
    (((timerLoop .PERIODIC intervalUs (fun _ => false) (fun _ => false) dur true
        n now0).1).map Tick.deadline
      = (List.range n).map (fun k => now0 + (k + 1) * intervalUs))
    ∧ ((∀ k, dur k ≤ intervalUs) →
      ∀ t ∈ (timerLoop .PERIODIC intervalUs (fun _ => false) (fun _ => false) dur true
        n now0).1, t.fireTime = t.deadline) := by
  constructor
  · exact periodic_deadlines intervalUs dur n 0 now0 now0
  · intro hdur
    exact periodic_fire_on_time intervalUs dur hdur n 0 now0 now0 (by omega)

/-- Witness for periodic_timer_drift_free: a three-tick run at 50000 us with
1000 us callbacks fires at 50000, 100000, 150000 exactly. -/
theorem periodic_timer_drift_free_witness :
    (((timerLoop .PERIODIC 50000 (fun _ => false) (fun _ => false) (fun _ => 1000) true
        3 0).1).map Tick.deadline
      = (List.range 3).map (fun k => 0 + (k + 1) * 50000))
    ∧ (∀ k : Nat, (fun _ : Nat => 1000) k ≤ 50000)
    ∧ (∀ t ∈ (timerLoop .PERIODIC 50000 (fun _ => false) (fun _ => false) (fun _ => 1000) true
        3 0).1, t.fireTime = t.deadline) :=
  ⟨(periodic_timer_drift_free 3 50000 0 (fun _ => 1000)).1,
   fun k => by norm_num,
   (periodic_timer_drift_free 3 50000 0 (fun _ => 1000)).2 (fun k => by norm_num)⟩

/-- C5: a one-shot timer whose stop flag is never raised sleeps the interval
once, fires its callback exactly once (at now0 + interval), and exits the
loop on its own — for any observation length fuel ≥ 1 the recorded firing
list is exactly one tick and the exit flag is set, after which the thread
runs running.store(false), so isRunning reports false. -/
theorem oneshot_timer_fires_once (fuel intervalUs now0 : Nat) (dur : Nat → Nat)
    (hfuel : 1 ≤ fuel) :
    timerLoop .ONE_SHOT intervalUs (fun _ => false) (fun _ => false) dur true fuel now0
      = ([⟨now0 + intervalUs, now0 + intervalUs⟩], true)
    ∧ ∀ st : TimerSt, TimerLinux.isRunning (TimerLinux.threadExit st) = false := by
  constructor
  · obtain ⟨f, rfl⟩ : ∃ f, fuel = f + 1 := ⟨fuel - 1, by omega⟩
    simp [timerLoop, timerLoopGo]
  · intro st
    simp [TimerLinux.isRunning, TimerLinux.threadExit]

/-- Witness for oneshot_timer_fires_once at fuel 9 (long observation). -/
theorem oneshot_timer_fires_once_witness :
    (1 ≤ 9)
    ∧ timerLoop .ONE_SHOT 50000 (fun _ => false) (fun _ => false) (fun _ => 7) true 9 0
        = ([⟨50000, 50000⟩], true)
    ∧ TimerLinux.isRunning (TimerLinux.threadExit
        (TimerLinux.start (TimerLinux.init timerInitSt .ONE_SHOT).2 50000 true).2) = false :=
  ⟨by norm_num,
   (oneshot_timer_fires_once 9 50000 0 (fun _ => 7) (by norm_num)).1,
   (oneshot_timer_fires_once 9 50000 0 (fun _ => 7) (by norm_num)).2 _⟩

/-- C6: while the timer is running, start returns false and leaves the
state — including the number of live worker threads — untouched, and
setInterval returns false and leaves the stored interval untouched. -/
theorem timer_start_setInterval_while_running (st : TimerSt) (interval : Nat)
    (cb : Bool) (hrun : st.running = true) :
    TimerLinux.start st interval cb = (false, st)
    ∧ (TimerLinux.start st interval cb).2.liveThreads = st.liveThreads
    ∧ TimerLinux.setInterval st interval = (false, st)
    ∧ (TimerLinux.setInterval st interval).2.intervalUs = st.intervalUs := by
  refine ⟨?_, ?_, ?_, ?_⟩ <;> simp [TimerLinux.start, TimerLinux.setInterval, hrun]

/-- Witness for timer_start_setInterval_while_running on a just-started
timer. -/
theorem timer_start_setInterval_while_running_witness :
    ((TimerLinux.start timerInitSt 100 true).2.running = true)
    ∧ TimerLinux.start (TimerLinux.start timerInitSt 100 true).2 200 true
        = (false, (TimerLinux.start timerInitSt 100 true).2)
    ∧ TimerLinux.setInterval (TimerLinux.start timerInitSt 100 true).2 200
        = (false, (TimerLinux.start timerInitSt 100 true).2) :=
  ⟨by decide,
   (timer_start_setInterval_while_running _ 200 true (by decide)).1,
   (timer_start_setInterval_while_running _ 200 true (by decide)).2.2.1⟩

/-- C7 counterexample: start a one-shot timer; its loop fires once and exits
on its own (the exit flag of the loop run is true), after which the timer is
not running — yet stop() on this inactive timer returns true, not false,
because the finished thread is still joinable and gets joined.  This refutes
the claim that stop() on an inactive component returns false. -/
theorem stop_after_oneshot_cex :
    ((timerLoop .ONE_SHOT 50000 (fun _ => false) (fun _ => false) (fun _ => 0) true
        1 0).2 = true)
    ∧ (TimerLinux.isRunning (TimerLinux.threadExit
        (TimerLinux.start (TimerLinux.init timerInitSt .ONE_SHOT).2 50000 true).2) = false)
    ∧ ((TimerLinux.stop (TimerLinux.threadExit
        (TimerLinux.start (TimerLinux.init timerInitSt .ONE_SHOT).2 50000 true).2)).1
        = true) := by
  refine ⟨?_, by decide, by decide⟩
  simp [timerLoop, timerLoopGo]

/-- C7 (amended): TimerLinux::stop() returns false only when the timer
thread is not joinable (never started, or already joined); its only effect
then is raising the shouldStop flag.  After a one-shot timer completes
naturally the finished thread is still joinable, so stop() joins it and
returns true (see the counterexample).  HALStateEngine::stop() on an engine
that is not running returns immediately with the state unchanged (its API
returns the engine reference, not a boolean). -/
theorem stop_on_inactive_component (st : TimerSt) (es : EngineSt)
    (ht : st.threadJoinable = false) (he : es.running = false) :
    TimerLinux.stop st = (false, { st with shouldStop := true })
    ∧ HALStateEngine.stop es = es := by
  constructor
  · simp [TimerLinux.stop, ht]
  · simp [HALStateEngine.stop, he]

/-- Witness for stop_on_inactive_component: a never-started timer and a
fresh engine. -/
theorem stop_on_inactive_component_witness :
    (timerInitSt.threadJoinable = false)
    ∧ (engineInit.running = false)
    ∧ TimerLinux.stop timerInitSt = (false, { timerInitSt with shouldStop := true })
    ∧ HALStateEngine.stop engineInit = engineInit :=
  ⟨by decide, by decide,
   (stop_on_inactive_component timerInitSt engineInit (by decide) (by decide)).1,
   (stop_on_inactive_component timerInitSt engineInit (by decide) (by decide)).2⟩

/-- C8: evaluation of the model at the failing input.  setInterrupt on pin 4
spawns one watcher; a second setInterrupt while the watcher is active reuses
it (still one thread).  But removeInterrupt only clears interruptActive — it
neither raises shutdownRequested_ nor joins the thread, whose poll loop only
rechecks shutdownRequested_ — so a removeInterrupt followed by another
setInterrupt on the same pin finds interruptActive false and spawns a second
monitor thread while the first is still running: two live watcher threads on
one pin, violating the claimed at-most-one invariant. -/
theorem gpio_watcher_thread_leak :
    (((GPIOLinux.setInterrupt (GPIOLinux.setInterrupt sysInit 4 .RISING (some 7)).2
        4 .RISING (some 7)).2).gpio.liveWatchers 4 = 1)
    ∧ ((GPIOLinux.removeInterrupt
        (GPIOLinux.setInterrupt sysInit 4 .RISING (some 7)).2 4).1 = true)
    ∧ (((GPIOLinux.setInterrupt ((GPIOLinux.removeInterrupt
        ((GPIOLinux.setInterrupt sysInit 4 .RISING (some 7)).2) 4).2) 4 .RISING
        (some 7)).2).gpio.liveWatchers 4 = 2) := by
  refine ⟨by decide, by decide, by decide⟩

/-- engineInv is preserved by every public engine call. -/
lemma engineInv_apply (st : EngineSt) (h : engineInv st) :
    ∀ op : EngineOp, engineInv (applyEngineOp st op) := by
  intro op
  obtain ⟨hw, hj⟩ := h
  cases op with
  | startOp =>
    by_cases hr : st.running = true
    · have hid : HALStateEngine.start st = st := by
        simp [HALStateEngine.start, hr]
      show engineInv (HALStateEngine.start st)
      rw [hid]
      exact ⟨hw, hj⟩
    · have hw0 : st.liveWorkers = 0 := by
        rw [hw]; simp [hr]
      refine ⟨?_, ?_⟩
      · simp [applyEngineOp, HALStateEngine.start, hr, hw0]
      · intro hrun
        simp [applyEngineOp, HALStateEngine.start, hr]
  | stopOp =>
    by_cases hr : st.running = true
    · have hjt : st.workerJoinable = true := hj hr
      refine ⟨?_, ?_⟩
      · simp [applyEngineOp, HALStateEngine.stop, hr, hjt]
      · intro hrun
        simp [applyEngineOp, HALStateEngine.stop, hr, hjt] at hrun
    · have hid : HALStateEngine.stop st = st := by
        simp [HALStateEngine.stop, hr]
      show engineInv (HALStateEngine.stop st)
      rw [hid]
      exact ⟨hw, hj⟩

/-- engineInv is preserved by any sequence of public engine calls. -/
lemma engineInv_run :
    ∀ (ops : List EngineOp) (st : EngineSt), engineInv st →
      engineInv (ops.foldl applyEngineOp st) := by
  intro ops
  induction ops with
  | nil => intro st h; simpa using h
  | cons op rest ih => intro st h; exact ih _ (engineInv_apply st h op)

/-- C9: HALStateEngine::start() is idempotent — on a running engine it is a
no-op returning the unchanged state — and over every sequence of start and
stop calls on a fresh engine the number of live worker threads is exactly
one while running and zero otherwise. -/
theorem engine_start_idempotent_single_worker :
    (∀ st : EngineSt, st.running = true → HALStateEngine.start st = st)
    ∧ (∀ ops : List EngineOp,
      (engineRun ops).liveWorkers = (if (engineRun ops).running then 1 else 0)) := by
  constructor
  · intro st hr
    simp [HALStateEngine.start, hr]
  · intro ops
    exact (engineInv_run ops engineInit (by simp [engineInv, engineInit])).1

/-- Witness for engine_start_idempotent_single_worker: a started engine, and
a concrete call sequence. -/
theorem engine_start_idempotent_single_worker_witness :
    ((HALStateEngine.start engineInit).running = true)
    ∧ HALStateEngine.start (HALStateEngine.start engineInit)
        = HALStateEngine.start engineInit
    ∧ (engineRun [.startOp, .startOp, .stopOp]).liveWorkers
        = (if (engineRun [.startOp, .startOp, .stopOp]).running then 1 else 0) :=
  ⟨by decide,
   engine_start_idempotent_single_worker.1 _ (by decide),
   engine_start_idempotent_single_worker.2 [.startOp, .startOp, .stopOp]⟩

/-- C10: getState() can only ever report RUNNING or STOPPED — it never
reports IDLE for any engine state — and a freshly constructed engine on
which start() was never called already reports STOPPED. -/
theorem engine_state_never_idle :
    (∀ st : EngineSt, HALStateEngine.getState st ≠ HALState.IDLE)
    ∧ HALStateEngine.getState (engineRun []) = HALState.STOPPED := by
  constructor
  · intro st
    unfold HALStateEngine.getState
    by_cases h : st.running <;> simp [h]
  · decide

/-- Witness for engine_state_never_idle at concrete reachable states. -/
theorem engine_state_never_idle_witness :
    (HALStateEngine.getState (engineRun [.startOp]) ≠ HALState.IDLE)
    ∧ (HALStateEngine.getState (engineRun [.startOp, .stopOp]) ≠ HALState.IDLE)
    ∧ HALStateEngine.getState (engineRun []) = HALState.STOPPED :=
  ⟨engine_state_never_idle.1 _, engine_state_never_idle.1 _,
   engine_state_never_idle.2⟩

/-- With inert handlers the GPIO invoke loop leaves the state unchanged and
delivers exactly the snapshot list, in order. -/
lemma invokeGPIOGo_inert (H : Nat → List CMOp) (hH : ∀ h, H h = [])
    (pin : Nat) (value : PinValue) :
    ∀ (l : List Nat) (st : CMState),
      invokeGPIOGo H pin value l st
        = (st, l.filterMap (fun callbackId =>
            match st.gpioCallbacks callbackId with
            | none => none
            | some info =>
              info.callback.map (fun h => (⟨callbackId, h, pin, value⟩ : GPIOEvent)))) := by
  intro l
  induction l with
  | nil => intro st; simp [invokeGPIOGo]
  | cons callbackId rest ih =>
    intro st
    cases hc : st.gpioCallbacks callbackId with
    | none => simp [invokeGPIOGo, hc, ih st]
    | some info =>
      cases hcb : info.callback with
      | none => simp [invokeGPIOGo, hc, hcb, ih st]
      | some hnd => simp [invokeGPIOGo, hc, hcb, hH, runCMOps, ih st]

/-- invokeGPIOCallback with inert handlers delivers gpioSnapshotEvents. -/
lemma invokeGPIOCallback_inert (H : Nat → List CMOp) (hH : ∀ h, H h = [])
    (st : CMState) (pin : Nat) (value : PinValue) :
    (invokeGPIOCallback H st pin value).2 = gpioSnapshotEvents st pin value := by
  rw [invokeGPIOCallback, invokeGPIOGo_inert H hH pin value]
  rfl

/-- Timer-domain analogue of invokeGPIOGo_inert. -/
lemma invokeTimerGo_inert (H : Nat → List CMOp) (hH : ∀ h, H h = []) :
    ∀ (l : List Nat) (st : CMState),
      invokeTimerGo H l st
        = (st, l.filterMap (fun callbackId =>
            match st.timerCallbacks callbackId with
            | none => none
            | some info =>
              info.callback.map (fun h => (⟨callbackId, h⟩ : TimerEvent)))) := by
  intro l
  induction l with
  | nil => intro st; simp [invokeTimerGo]
  | cons callbackId rest ih =>
    intro st
    cases hc : st.timerCallbacks callbackId with
    | none => simp [invokeTimerGo, hc, ih st]
    | some info =>
      cases hcb : info.callback with
      | none => simp [invokeTimerGo, hc, hcb, ih st]
      | some hnd => simp [invokeTimerGo, hc, hcb, hH, runCMOps, ih st]

/-- Every snapshot event comes from a subscription currently in the vector
of the pin, carries the stored handler of that subscription, and is tagged with the
invoked pin and value. -/
lemma gpioSnapshotEvents_mem (st : CMState) (pin : Nat) (value : PinValue)
    (e : GPIOEvent) (he : e ∈ gpioSnapshotEvents st pin value) :
    e.callbackId ∈ st.gpioCallbacksByPin pin
      ∧ ∃ info, st.gpioCallbacks e.callbackId = some info
          ∧ info.callback = some e.handler ∧ e.pin = pin ∧ e.value = value := by
  obtain ⟨a, ha, hfa⟩ := List.mem_filterMap.mp he
  cases hc : st.gpioCallbacks a with
  | none => rw [hc] at hfa; simp at hfa
  | some info =>
    rw [hc] at hfa
    simp at hfa
    obtain ⟨hnd, hcb, hfe⟩ := hfa
    subst hfe
    exact ⟨ha, info, hc, hcb, rfl, rfl⟩

/-- The subscription ids of the snapshot events form a sublist of the vector
of the pin. -/
lemma gpioSnapshotEvents_ids_sublist (st : CMState) (pin : Nat) (value : PinValue) :
    ((gpioSnapshotEvents st pin value).map GPIOEvent.callbackId).Sublist
      (st.gpioCallbacksByPin pin) := by
  rw [gpioSnapshotEvents]
  generalize st.gpioCallbacksByPin pin = l
  induction l with
  | nil => simp
  | cons a rest ih =>
    cases hc : st.gpioCallbacks a with
    | none =>
      simp only [List.filterMap_cons, hc]
      exact ih.cons a
    | some info =>
      cases hcb : info.callback with
      | none =>
        simp only [List.filterMap_cons, hc, hcb, Option.map_none]
        exact ih.cons a
      | some hnd =>
        simp only [List.filterMap_cons, hc, hcb, Option.map_some, List.map_cons]
        exact ih.cons₂ a

/-- The pin vectors of cmTwoOn17: [1, 2] on pin 17 and empty elsewhere. -/
lemma cmTwoOn17_byPin (pin : Nat) :
    cmTwoOn17.gpioCallbacksByPin pin = if pin = 17 then [1, 2] else [] := by
  by_cases h : pin = 17
  · subst h; decide
  · simp [cmTwoOn17, registerGPIOCallback, cmInit, h]

/-- The two-subscription state on pin 17 is well formed. -/
lemma gpioWf_cmTwoOn17 : GpioWf cmTwoOn17 := by
  constructor
  · intro pin
    rw [cmTwoOn17_byPin]
    by_cases h : pin = 17 <;> simp [h]
  · intro pin callbackId hmem
    rw [cmTwoOn17_byPin] at hmem
    by_cases h : pin = 17
    · subst h
      simp at hmem
      rcases hmem with rfl | rfl
      · exact ⟨⟨17, some 10⟩, by decide, rfl⟩
      · exact ⟨⟨17, some 20⟩, by decide, rfl⟩
    · simp [h] at hmem

/-- C2: with handlers that do not mutate the subscription tables, one
invocation delivers exactly the handlers subscribed to the invoked key at
call time — the event list equals the snapshot of the vector of the key, whose
order is registration order because registration appends the fresh id at the
tail of the vector of its own key and touches no other — each subscribed id at
most once (no duplicate deliveries), every delivered handler belonging to a
subscription of the invoked pin; the timer-keyed domain satisfies the same
snapshot equation, and the concrete two-subscription scenario on pin 17
invoked with HIGH delivers exactly the two events in registration order. -/
theorem invoke_delivers_current_subscribers_in_order :
    (∀ (H : Nat → List CMOp) (st : CMState) (pin : Nat) (v : PinValue),
      (∀ h, H h = []) →
      (invokeGPIOCallback H st pin v).2 = gpioSnapshotEvents st pin v)
    ∧ (∀ (st : CMState) (pin : Nat) (cb : Option Nat),
      ((registerGPIOCallback st pin cb).2).gpioCallbacksByPin pin
          = st.gpioCallbacksByPin pin ++ [(registerGPIOCallback st pin cb).1]
        ∧ (∀ p, p ≠ pin → ((registerGPIOCallback st pin cb).2).gpioCallbacksByPin p
            = st.gpioCallbacksByPin p)
        ∧ ((registerGPIOCallback st pin cb).2).gpioCallbacks
            (registerGPIOCallback st pin cb).1 = some ⟨pin, cb⟩)
    ∧ (∀ (H : Nat → List CMOp) (st : CMState) (pin : Nat) (v : PinValue),
      GpioWf st → (∀ h, H h = []) →
      ∀ e ∈ (invokeGPIOCallback H st pin v).2,
        e.pin = pin ∧ e.value = v ∧
        ∃ info, st.gpioCallbacks e.callbackId = some info ∧ info.pin = pin
          ∧ info.callback = some e.handler)
    ∧ (∀ (H : Nat → List CMOp) (st : CMState) (pin : Nat) (v : PinValue),
      GpioWf st → (∀ h, H h = []) →
      ((invokeGPIOCallback H st pin v).2.map GPIOEvent.callbackId).Nodup)
    ∧ (∀ (H : Nat → List CMOp) (st : CMState) (timerId : Nat),
      (∀ h, H h = []) →
      (invokeTimerCallback H st timerId).2 = timerSnapshotEvents st timerId)
    ∧ (invokeGPIOCallback (fun _ => []) cmTwoOn17 17 .HIGH).2
        = [⟨1, 10, 17, .HIGH⟩, ⟨2, 20, 17, .HIGH⟩] := by
  refine ⟨?_, ?_, ?_, ?_, ?_, ?_⟩
  · intro H st pin v hH
    exact invokeGPIOCallback_inert H hH st pin v
  · intro st pin cb
    refine ⟨?_, ?_, ?_⟩
    · simp [registerGPIOCallback]
    · intro p hp
      simp [registerGPIOCallback, hp]
    · simp [registerGPIOCallback]
  · intro H st pin v hw hH e he
    rw [invokeGPIOCallback_inert H hH st pin v] at he
    obtain ⟨hid, info, hinfo, hcb, hpin, hval⟩ := gpioSnapshotEvents_mem st pin v e he
    obtain ⟨info2, hinfo2, hpin2⟩ := hw.2 pin e.callbackId hid
    rw [hinfo] at hinfo2
    cases hinfo2
    exact ⟨hpin, hval, info, hinfo, hpin2, hcb⟩
  · intro H st pin v hw hH
    rw [invokeGPIOCallback_inert H hH st pin v]
    exact (gpioSnapshotEvents_ids_sublist st pin v).nodup (hw.1 pin)
  · intro H st timerId hH
    rw [invokeTimerCallback, invokeTimerGo_inert H hH]
    rfl
  · decide

/-- Witness for invoke_delivers_current_subscribers_in_order: the inert
handler environment and the well-formed two-subscription state on pin 17. -/
theorem invoke_delivers_current_subscribers_in_order_witness :
    (∀ h : Nat, (fun _ : Nat => ([] : List CMOp)) h = [])
    ∧ GpioWf cmTwoOn17
    ∧ (invokeGPIOCallback (fun _ => []) cmTwoOn17 17 .HIGH).2
        = gpioSnapshotEvents cmTwoOn17 17 .HIGH
    ∧ ((invokeGPIOCallback (fun _ => []) cmTwoOn17 17 .HIGH).2.map
        GPIOEvent.callbackId).Nodup
    ∧ (invokeTimerCallback (fun _ => []) cmInit 5).2 = timerSnapshotEvents cmInit 5 :=
  ⟨fun _ => rfl,
   gpioWf_cmTwoOn17,
   invoke_delivers_current_subscribers_in_order.1 (fun _ => []) cmTwoOn17 17 .HIGH
     (fun _ => rfl),
   invoke_delivers_current_subscribers_in_order.2.2.2.1 (fun _ => []) cmTwoOn17 17 .HIGH
     gpioWf_cmTwoOn17 (fun _ => rfl),
   invoke_delivers_current_subscribers_in_order.2.2.2.2.1 (fun _ => []) cmInit 5
     (fun _ => rfl)⟩

/-- An erased-and-stale subscription stays erased under every single
CallbackManager operation: registrations reissue only ids at or above the
counter, which the erased id is below. -/
lemma gpioGone_applyCMOp (a : Nat) (st : CMState) (hg : gpioGone a st) :
    ∀ op : CMOp, gpioGone a (applyCMOp st op) := by
  obtain ⟨hnone, hlt⟩ := hg
  intro op
  cases op with
  | regGpioCb pin cb =>
    have hne : a ≠ st.nextCallbackId := by omega
    constructor
    · simp [applyCMOp, registerGPIOCallback, hne, hnone]
    · simp [applyCMOp, registerGPIOCallback]
      omega
  | unregGpioCb callbackId =>
    cases hc : st.gpioCallbacks callbackId with
    | none =>
      simp [applyCMOp, unregisterGPIOCallback, hc]
      exact ⟨hnone, hlt⟩
    | some info =>
      constructor
      · by_cases hia : a = callbackId <;>
          simp [applyCMOp, unregisterGPIOCallback, hc, hia, hnone]
      · simp [applyCMOp, unregisterGPIOCallback, hc]
        exact hlt
  | regTimerCb timerId cb =>
    constructor
    · simp [applyCMOp, registerTimerCallback, hnone]
    · simp [applyCMOp, registerTimerCallback]
      omega
  | unregTimerCb callbackId =>
    cases hc : st.timerCallbacks callbackId with
    | none =>
      simp [applyCMOp, unregisterTimerCallback, hc]
      exact ⟨hnone, hlt⟩
    | some info =>
      constructor
      · simp [applyCMOp, unregisterTimerCallback, hc, hnone]
      · simp [applyCMOp, unregisterTimerCallback, hc]
        exact hlt

/-- An erased-and-stale subscription stays erased under every sequence of
CallbackManager operations. -/
lemma gpioGone_runCMOps (a : Nat) :
    ∀ (ops : List CMOp) (st : CMState), gpioGone a st →
      gpioGone a (runCMOps st ops) := by
  intro ops
  induction ops with
  | nil => intro st h; exact h
  | cons op rest ih =>
    intro st h
    exact ih _ (gpioGone_applyCMOp a st h op)

/-- Every event of the invoke loop names an id of the processed list. -/
lemma invokeGPIOGo_event_ids (H : Nat → List CMOp) (pin : Nat) (v : PinValue) :
    ∀ (l : List Nat) (st : CMState),
      ∀ e ∈ (invokeGPIOGo H pin v l st).2, e.callbackId ∈ l := by
  intro l
  induction l with
  | nil => intro st e he; simp [invokeGPIOGo] at he
  | cons callbackId rest ih =>
    intro st e he
    cases hc : st.gpioCallbacks callbackId with
    | none =>
      simp only [invokeGPIOGo, hc] at he
      exact List.mem_cons_of_mem _ (ih st e he)
    | some info =>
      cases hcb : info.callback with
      | none =>
        simp only [invokeGPIOGo, hc, hcb] at he
        exact List.mem_cons_of_mem _ (ih st e he)
      | some hnd =>
        simp only [invokeGPIOGo, hc, hcb, List.mem_cons] at he
        rcases he with rfl | hrest
        · exact List.mem_cons_self _ _
        · exact List.mem_cons_of_mem _ (ih _ e hrest)

/-- Once a subscription is erased and below the id counter, the invoke loop
never delivers to it, whatever its handlers do to the tables meanwhile. -/
lemma invokeGPIOGo_gone (H : Nat → List CMOp) (pin : Nat) (v : PinValue) (a : Nat) :
    ∀ (l : List Nat) (st : CMState), gpioGone a st →
      ∀ e ∈ (invokeGPIOGo H pin v l st).2, e.callbackId ≠ a := by
  intro l
  induction l with
  | nil => intro st hg e he; simp [invokeGPIOGo] at he
  | cons callbackId rest ih =>
    intro st hg e he
    cases hc : st.gpioCallbacks callbackId with
    | none =>
      simp only [invokeGPIOGo, hc] at he
      exact ih st hg e he
    | some info =>
      have hne : callbackId ≠ a := by
        intro heq
        rw [heq, hg.1] at hc
        exact Option.noConfusion hc
      cases hcb : info.callback with
      | none =>
        simp only [invokeGPIOGo, hc, hcb] at he
        exact ih st hg e he
      | some hnd =>
        simp only [invokeGPIOGo, hc, hcb, List.mem_cons] at he
        rcases he with rfl | hrest
        · exact hne
        · exact ih (runCMOps st (H hnd)) (gpioGone_runCMOps a (H hnd) st hg) e hrest

/-- Splitting the invoke loop across an append of the snapshot. -/
lemma invokeGPIOGo_append (H : Nat → List CMOp) (pin : Nat) (v : PinValue) :
    ∀ (l1 l2 : List Nat) (st : CMState),
      invokeGPIOGo H pin v (l1 ++ l2) st
        = ((invokeGPIOGo H pin v l2 (invokeGPIOGo H pin v l1 st).1).1,
           (invokeGPIOGo H pin v l1 st).2
             ++ (invokeGPIOGo H pin v l2 (invokeGPIOGo H pin v l1 st).1).2) := by
  intro l1
  induction l1 with
  | nil => intro l2 st; simp [invokeGPIOGo]
  | cons callbackId rest ih =>
    intro l2 st
    cases hc : st.gpioCallbacks callbackId with
    | none => simp only [List.cons_append, invokeGPIOGo, hc]; exact ih l2 st
    | some info =>
      cases hcb : info.callback with
      | none => simp only [List.cons_append, invokeGPIOGo, hc, hcb]; exact ih l2 st
      | some hnd =>
        simp only [List.cons_append, invokeGPIOGo, hc, hcb]
        rw [show rest.append l2 = rest ++ l2 from rfl, ih l2]

/-- C3: dispatch isolation of an unregistered subscription.  First, during
one invocation: if the snapshot of the vector of the pin splits as l1 ++ a :: l2
with a not in l1, and after the handlers of l1 have run subscription a has
been erased and predates the id counter (as happens when one of those
handlers unregistered it), then the in-flight invocation delivers no event
to a — the loop re-finds each id in the current table and skips a.  Second,
once unregisterGPIOCallback(a) has returned true on a table whose ids are
all below the id counter, no later invocation delivers to a, whatever
sequence of register and unregister operations runs in between. -/
theorem unregistered_subscription_never_invoked :
    (∀ (H : Nat → List CMOp) (st : CMState) (pin : Nat) (v : PinValue)
      (l1 l2 : List Nat) (a : Nat),
      st.gpioCallbacksByPin pin = l1 ++ a :: l2 →
      a ∉ l1 →
      gpioGone a (invokeGPIOGo H pin v l1 st).1 →
      ∀ e ∈ (invokeGPIOCallback H st pin v).2, e.callbackId ≠ a)
    ∧ (∀ (st : CMState) (a : Nat),
      (unregisterGPIOCallback st a).1 = true →
      (∀ (callbackId : Nat) (info : GPIOCallbackInfo),
        st.gpioCallbacks callbackId = some info → callbackId < st.nextCallbackId) →
      ∀ (ops : List CMOp) (H : Nat → List CMOp) (pin : Nat) (v : PinValue),
        ∀ e ∈ (invokeGPIOCallback H
            (runCMOps (unregisterGPIOCallback st a).2 ops) pin v).2,
          e.callbackId ≠ a) := by
  constructor
  · intro H st pin v l1 l2 a hsnap hnotin hgone e he
    rw [invokeGPIOCallback, hsnap, invokeGPIOGo_append] at he
    rcases List.mem_append.mp he with h1 | h2
    · have hmem := invokeGPIOGo_event_ids H pin v l1 st e h1
      intro heq
      rw [heq] at hmem
      exact hnotin hmem
    · exact invokeGPIOGo_gone H pin v a (a :: l2) _ hgone e h2
  · intro st a htrue hbound ops H pin v e he
    cases hc : st.gpioCallbacks a with
    | none => simp [unregisterGPIOCallback, hc] at htrue
    | some info =>
      have hgone0 : gpioGone a (unregisterGPIOCallback st a).2 := by
        constructor
        · simp [unregisterGPIOCallback, hc]
        · have := hbound a info hc
          simp [unregisterGPIOCallback, hc]
          exact this
      have hgone1 := gpioGone_runCMOps a ops _ hgone0
      exact invokeGPIOGo_gone H pin v a _ _ hgone1 e he

/-- Every registered id of cmThreeOn17 is below its id counter. -/
lemma cmThreeOn17_ids_lt :
    ∀ (callbackId : Nat) (info : GPIOCallbackInfo),
      cmThreeOn17.gpioCallbacks callbackId = some info →
      callbackId < cmThreeOn17.nextCallbackId := by
  intro callbackId info h
  have hn : cmThreeOn17.nextCallbackId = 4 := by decide
  rw [hn]
  by_cases h1 : callbackId = 1
  · omega
  by_cases h2 : callbackId = 2
  · omega
  by_cases h3 : callbackId = 3
  · omega
  exfalso
  simp [cmThreeOn17, registerGPIOCallback, cmInit, h1, h2, h3] at h

/-- Witness for unregistered_subscription_never_invoked: handler 100 (id 1)
unregisters id 3 mid-invocation on pin 17, so the in-flight invocation skips
id 3; and after unregistering id 2 no later invocation delivers to id 2 even
after a further registration on the same pin. -/
theorem unregistered_subscription_never_invoked_witness :
    (cmThreeOn17.gpioCallbacksByPin 17 = [1, 2] ++ 3 :: [])
    ∧ (3 ∉ [1, 2])
    ∧ gpioGone 3 (invokeGPIOGo unregThreeEnv 17 .HIGH [1, 2] cmThreeOn17).1
    ∧ (∀ e ∈ (invokeGPIOCallback unregThreeEnv cmThreeOn17 17 .HIGH).2,
        e.callbackId ≠ 3)
    ∧ ((unregisterGPIOCallback cmThreeOn17 2).1 = true)
    ∧ (∀ e ∈ (invokeGPIOCallback (fun _ => [])
        (runCMOps (unregisterGPIOCallback cmThreeOn17 2).2
          [.regGpioCb 17 (some 400)]) 17 .HIGH).2,
        e.callbackId ≠ 2) :=
  ⟨by decide, by decide, ⟨by decide, by decide⟩,
   unregistered_subscription_never_invoked.1 unregThreeEnv cmThreeOn17 17 .HIGH
     [1, 2] [] 3 (by decide) (by decide) ⟨by decide, by decide⟩,
   by decide,
   unregistered_subscription_never_invoked.2 cmThreeOn17 2 (by decide)
     cmThreeOn17_ids_lt [.regGpioCb 17 (some 400)] (fun _ => []) 17 .HIGH⟩
